import Mathlib

/-!
Verification development for the kompass-app offline-first data layer.

The definitions below are a shallow embedding of the TypeScript sources:

* `src/services/dataService.ts` — `HybridDataService` (hybrid storage
  coordinator over Supabase and localStorage) and `SupabaseStorageBackend`;
* `src/services/errorHandlingService.ts` — `ErrorHandlingService`;
* `src/services/syncService.ts` — `SyncService` (reconciliation engine and
  offline change queue);
* `src/services/encryptionService.ts` — `EncryptionService`.

Modelling conventions:

* JavaScript timestamps (ISO-8601 strings and `Date.getTime()` values) are
  modelled as `Nat` milliseconds since the epoch; lexicographic comparison of
  fixed-width ISO-8601 strings agrees with the chronological order.
* Values stored per data kind are an arbitrary type `V` with decidable
  equality standing for `JSON.stringify` equality of the stored payloads.
* Thrown JavaScript errors are modelled as `Except String` results carrying
  the thrown error message, since the source dispatches on message substrings.
* External collaborators (the Supabase tables, the JSON parser built into the
  platform) are oracle parameters, exactly as the specification treats them.
-/

set_option linter.unusedVariables false

/-- Boolean test that the first list occurs at the start of the second; this
models the JavaScript `String.prototype.startsWith` on the underlying
character lists. -/
def listAtStart {α : Type} [DecidableEq α] : List α → List α → Bool
  | [], _ => true
  | _ :: _, [] => false
  | a :: as, b :: bs => a = b && listAtStart as bs

/-- Boolean test that the first list occurs contiguously inside the second;
this models the JavaScript `String.prototype.includes`. -/
def listHasInfix {α : Type} [DecidableEq α] (needle : List α) : List α → Bool
  | [] => listAtStart needle []
  | b :: bs => listAtStart needle (b :: bs) || listHasInfix needle bs

/-- JavaScript `haystack.includes(needle)` for strings. -/
def strIncludes (haystack needle : String) : Bool :=
  listHasInfix needle.data haystack.data

/-- JavaScript `s.startsWith(p)` for strings. -/
def strStartsWith (p s : String) : Bool := listAtStart p.data s.data

/-- De-duplication keeping first occurrences, in insertion order, which is how
`Array.from(new Set(xs))` behaves in JavaScript for primitive values.
`seen` accumulates values already emitted. -/
def jsSetDedup {α : Type} [DecidableEq α] (seen : List α) : List α → List α
  | [] => []
  | x :: xs => if x ∈ seen then jsSetDedup seen xs else x :: jsSetDedup (x :: seen) xs

/-- Values already seen after scanning a list, in the order maintained by
`jsSetDedup`. -/
def collectSeen {α : Type} [DecidableEq α] (seen : List α) (l : List α) : List α :=
  l.foldl (fun s x => if x ∈ s then s else x :: s) seen

/-- Boolean test that a string is empty or all-whitespace; this models the
JavaScript validity check `!s || typeof s !== 'string' || s.trim() === ''`
used by the coordinator on owner ids. -/
def isBlankStr (s : String) : Bool := s.data.all (fun c => c.isWhitespace)

namespace Kompass

/-- The Local Cache Store (localStorage through storageService): one value per
data kind, plus the parallel timestamp entries stored by the sync engine under
the derived keys `<kind>_timestamp`. In the source both live in the same
key-value store under disjoint keys; they are modelled as two maps. -/
structure LocalState (V : Type) where
  data : String → Option V
  tstamp : String → Option Nat

/-- The Remote Record Store (Supabase): one current record per data kind for
the active owner, plus the per-table `last_sync_at` value read back by
SyncService.getRemoteTimestamp from the sync_status table. -/
structure RemoteState (V : Type) where
  data : String → Option V
  ts : String → Option Nat

/-- Full storage state: both stores plus the in-memory retry map
HybridDataService.syncQueue, keyed by the pair (userId, key) as the source key
string `userId:key` is. An entry holds the queued value and its queue time. -/
structure World (V : Type) where
  localSt : LocalState V
  remote : RemoteState V
  syncQueue : String × String → Option (V × Nat)

def LocalState.setVal {V : Type} (st : LocalState V) (k : String) (v : V) : LocalState V :=
  { st with data := fun k' => if k' = k then some v else st.data k' }

def LocalState.setTs {V : Type} (st : LocalState V) (k : String) (t : Nat) : LocalState V :=
  { st with tstamp := fun k' => if k' = k then some t else st.tstamp k' }

def RemoteState.setVal {V : Type} (st : RemoteState V) (k : String) (v : V) : RemoteState V :=
  { st with data := fun k' => if k' = k then some v else st.data k' }

/-- Observable storage actions of one coordinator call, in program order. -/
inductive StoreEv where
  | remoteWrite (key : String)
  | remoteFailed (key : String)
  | localWrite (key : String)
  | enqueued (key : String)
deriving DecidableEq, Repr

namespace HybridDataService

/-- HybridDataService.setData (dataService.ts lines 859-890). `online` models
`this.isOnline`; `remoteOk` models whether the Supabase write succeeds. The
online path is Supabase-first: the remote write is attempted before the local
cache write; on remote failure the value is still cached locally and queued
via queueForSync; offline, the value is cached locally and queued. `now` is
`Date.now()` at the call. The returned list records the storage actions in
program order. -/
def setData {V : Type} (online remoteOk : Bool) (now : Nat) (key : String) (v : V)
    (userId : String) (w : World V) : World V × List StoreEv :=
  if online then
    if remoteOk then
      ({ w with remote := w.remote.setVal key v,
                localSt := w.localSt.setVal key v },
       [.remoteWrite key, .localWrite key])
    else
      ({ w with localSt := w.localSt.setVal key v,
                syncQueue := fun p => if p = (userId, key) then some (v, now)
                             else w.syncQueue p },
       [.remoteFailed key, .localWrite key, .enqueued key])
  else
    ({ w with localSt := w.localSt.setVal key v,
              syncQueue := fun p => if p = (userId, key) then some (v, now)
                           else w.syncQueue p },
     [.localWrite key, .enqueued key])

/-- SupabaseStorageBackend.get (dataService.ts lines 154-196), reduced to the
control flow that decides success and failure kind: owner-id validation, then
the session check performed by logDataAccess (which re-throws exactly the
session-mismatch error), then the table fetch and decryption, modelled by
`fetch` carrying either the fetched record or the thrown message of any other
failure (network, database, decryption). -/
def backendGet {V : Type} (session : Option String) (fetch : Except String (Option V))
    (userId : String) : Except String (Option V) :=
  if isBlankStr userId then .error "Invalid userId provided for data access"
  else if session ≠ some userId then
    .error "Session user ID mismatch - potential cross-user data access attempt"
  else fetch

/-- The message test of HybridDataService.getData's catch branch: an error is
treated as a critical identity failure exactly when its message contains
'Session user ID mismatch' or 'Invalid userId'. -/
def isCriticalAuthMsg (msg : String) : Bool :=
  strIncludes msg "Session user ID mismatch" || strIncludes msg "Invalid userId"

/-- HybridDataService.getData (dataService.ts lines 777-811). Returns the call
result (Except carries a thrown error) together with the updated Local Cache
Store: the online success path caches the remote value before returning it;
a null remote record and every non-identity failure fall back to the cache. -/
def getData {V : Type} (online : Bool) (session : Option String)
    (fetch : Except String (Option V)) (key userId : String)
    (st : LocalState V) : Except String (Option V) × LocalState V :=
  if isBlankStr userId then
    (.error ("Invalid userId provided for getData: " ++ userId), st)
  else if online then
    match backendGet session fetch userId with
    | .ok (some v) => (.ok (some v), st.setVal key v)
    | .ok none => (.ok (st.data key), st)
    | .error msg =>
      if isCriticalAuthMsg msg then (.error msg, st)
      else (.ok (st.data key), st)
  else (.ok (st.data key), st)

/-- HybridDataService.getDataSafe (dataService.ts lines 817-854), instantiated
at a list-valued kind so the skillsList merge branch (both Array.isArray tests
true) is expressible; a null read makes Array.isArray false and falls through
to `data ?? defaultValue`. -/
def getDataSafe {α : Type} [DecidableEq α] (online : Bool) (session : Option String)
    (fetch : Except String (Option (List α))) (key userId : String)
    (st : LocalState (List α)) (defaultValue : List α) :
    Except String (List α) × LocalState (List α) :=
  match getData online session fetch key userId st with
  | (.error msg, st') =>
    if isCriticalAuthMsg msg then (.error msg, st') else (.ok defaultValue, st')
  | (.ok dataOpt, st') =>
    if key = "skillsList" then
      match dataOpt with
      | some l =>
        if l.length = 0 then (.ok defaultValue, st')
        else (.ok (jsSetDedup [] (defaultValue ++ l)), st')
      | none => (.ok defaultValue, st')
    else (.ok (dataOpt.getD defaultValue), st')

end HybridDataService

end Kompass


namespace Kompass

/-- Error severities of errorHandlingService.ts. -/
inductive ErrorSeverity where
  | low | medium | high | critical
deriving DecidableEq, Repr

/-- Error categories of errorHandlingService.ts. -/
inductive ErrorCategory where
  | network | authentication | encryption | storage | validation
  | sync | compliance | user_action | system
deriving DecidableEq, Repr

/-- FallbackStrategy (errorHandlingService.ts lines 1190-1197), without the
handler closure: handler outcomes are an oracle parameter of handleError. -/
structure FallbackStrategyM where
  name : String
  category : ErrorCategory
  canRetry : Bool
  maxRetries : Nat
  priority : Nat
deriving DecidableEq, Repr

/-- A recovery action offered to the user on a critical error, reduced to its
identifying name and flags (the action closure itself is behaviour). -/
structure RecoveryActionM where
  name : String
  isDestructive : Bool
  requiresConfirmation : Bool
deriving DecidableEq, Repr

/-- The structured value returned by escalateError and handleCriticalError.
The JavaScript objects carry only the fields relevant to each severity; absent
fields are modelled by the defaults false, none and []. -/
structure EscResult where
  error : Bool
  critical : Bool
  canRetry : Bool
  silent : Bool
  message : Option String
  recoveryActions : List RecoveryActionM
deriving DecidableEq, Repr

/-- The error record tracked per handled failure (ErrorInfo), reduced to the
fields the control flow reads. -/
structure ErrorInfoM where
  message : String
  category : ErrorCategory
  severity : ErrorSeverity
  resolved : Bool
  retryCount : Nat
  maxRetries : Nat
deriving DecidableEq, Repr

namespace ErrorHandlingService

/-- The fallback strategies registered at construction time
(initializeFallbackStrategies, errorHandlingService.ts lines 1246-1369). -/
def initialFallbackStrategies : List FallbackStrategyM :=
  [ { name := "network_retry", category := .network, canRetry := true,
      maxRetries := 3, priority := 1 },
    { name := "offline_mode", category := .network, canRetry := false,
      maxRetries := 0, priority := 2 },
    { name := "token_refresh", category := .authentication, canRetry := true,
      maxRetries := 2, priority := 1 },
    { name := "reauth_required", category := .authentication, canRetry := false,
      maxRetries := 0, priority := 2 },
    { name := "encryption_key_regenerate", category := .encryption, canRetry := true,
      maxRetries := 1, priority := 1 },
    { name := "encryption_fallback", category := .encryption, canRetry := false,
      maxRetries := 0, priority := 2 },
    { name := "storage_cleanup", category := .storage, canRetry := true,
      maxRetries := 1, priority := 1 },
    { name := "localStorage_fallback", category := .storage, canRetry := false,
      maxRetries := 0, priority := 2 },
    { name := "partial_sync", category := .sync, canRetry := true,
      maxRetries := 2, priority := 1 },
    { name := "queue_for_later", category := .sync, canRetry := false,
      maxRetries := 0, priority := 2 } ]

/-- Per-category retry budget (getMaxRetriesForCategory). -/
def getMaxRetriesForCategory : ErrorCategory → Nat
  | .network => 3
  | .authentication => 2
  | .encryption => 1
  | .storage => 2
  | .validation => 1
  | .sync => 3
  | .compliance => 1
  | .user_action => 0
  | .system => 2

/-- createErrorInfo, reduced to the fields the control flow reads. -/
def createErrorInfo (msg : String) (cat : ErrorCategory) (sev : ErrorSeverity) :
    ErrorInfoM :=
  { message := msg, category := cat, severity := sev, resolved := false,
    retryCount := 0, maxRetries := getMaxRetriesForCategory cat }

/-- generateRecoveryActions (errorHandlingService.ts lines 1520-1597):
category-specific actions plus the unconditional restart option. -/
def generateRecoveryActions (cat : ErrorCategory) : List RecoveryActionM :=
  (match cat with
   | .encryption =>
     [{ name := "reset_encryption", isDestructive := true, requiresConfirmation := true }]
   | .storage =>
     [{ name := "clear_cache", isDestructive := false, requiresConfirmation := false }]
   | .sync =>
     [{ name := "force_resync", isDestructive := false, requiresConfirmation := true }]
   | .network =>
     [{ name := "retry_connection", isDestructive := false, requiresConfirmation := false }]
   | _ => []) ++
  [{ name := "restart_app", isDestructive := false, requiresConfirmation := true }]

/-- escalateError (errorHandlingService.ts lines 1473-1497) together with
handleCriticalError for the critical case: the structured result returned when
no fallback strategy resolved the error. -/
def escalateError (info : ErrorInfoM) : EscResult :=
  match info.severity with
  | .critical =>
    { error := true, critical := true, canRetry := false, silent := false,
      message := some info.message,
      recoveryActions := generateRecoveryActions info.category }
  | .high =>
    { error := true, critical := false, canRetry := true, silent := false,
      message := some info.message, recoveryActions := [] }
  | .medium =>
    { error := true, critical := false, canRetry := false, silent := true,
      message := some info.message, recoveryActions := [] }
  | .low =>
    { error := true, critical := false, canRetry := false, silent := true,
      message := none, recoveryActions := [] }

/-- The strategy loop of handleError: try each strategy in order until one
succeeds; a failing retryable strategy below its retry budget increments the
error's retryCount and is queued for retry. Returns the final error record,
the strategies actually tried in order, the successful result if any, and the
strategies queued for retry. `handler` gives each strategy's outcome: some r
models a handler that resolves the error with r, none models a throw. -/
def runStrategies {R : Type} (handler : FallbackStrategyM → Option R) :
    ErrorInfoM → List FallbackStrategyM →
    ErrorInfoM × List FallbackStrategyM × Option R × List FallbackStrategyM
  | info, [] => (info, [], none, [])
  | info, s :: rest =>
    match handler s with
    | some r => ({ info with resolved := true }, [s], some r, [])
    | none =>
      let qd := s.canRetry && decide (info.retryCount < s.maxRetries)
      let info' := if qd then { info with retryCount := info.retryCount + 1 } else info
      let step := runStrategies handler info' rest
      (step.1, s :: step.2.1, step.2.2.1, (if qd then [s] else []) ++ step.2.2.2)

/-- Outcome of handleError: a strategy's result, or the escalation value. -/
inductive HandleOutcome (R : Type) where
  | resolved (r : R)
  | escalated (e : EscResult)
deriving DecidableEq, Repr

/-- The strategy selection of handleError: the registered strategies of the
error's category, ordered by ascending priority (Array.prototype.sort is
stable, as is insertionSort). -/
def applicableStrategies (strategies : List FallbackStrategyM)
    (cat : ErrorCategory) : List FallbackStrategyM :=
  List.insertionSort (fun a b => a.priority ≤ b.priority)
    (strategies.filter (fun s => s.category = cat))

/-- ErrorHandlingService.handleError (errorHandlingService.ts lines
1374-1415): build the error record, select the strategies registered for the
category ordered by ascending priority, try them in order, and escalate when
none resolves. Also returns the tried strategies in order and the final error
record. -/
def handleError {R : Type} (handler : FallbackStrategyM → Option R)
    (strategies : List FallbackStrategyM) (msg : String) (cat : ErrorCategory)
    (sev : ErrorSeverity) :
    HandleOutcome R × List FallbackStrategyM × ErrorInfoM :=
  let step := runStrategies handler (createErrorInfo msg cat sev)
    (applicableStrategies strategies cat)
  match step.2.2.1 with
  | some r => (.resolved r, step.2.1, step.1)
  | none => (.escalated (escalateError step.1), step.2.1, step.1)

end ErrorHandlingService

end Kompass


namespace Kompass

/-- Conflict resolution policies of syncService.ts (SyncSettings). -/
inductive ConflictResolution where
  | local_wins | remote_wins | manual | latest_timestamp
deriving DecidableEq, Repr

/-- SyncSettings (syncService.ts lines 1020-1027). -/
structure SyncSettingsM where
  autoSync : Bool
  syncInterval : Nat
  conflictResolution : ConflictResolution
  maxRetries : Nat
  batchSize : Nat
  healthcareDataPriority : Bool
deriving DecidableEq, Repr

/-- The default sync settings (loadSyncSettings, syncService.ts lines
1626-1637). -/
def defaultSyncSettings : SyncSettingsM :=
  { autoSync := true, syncInterval := 300000,
    conflictResolution := .latest_timestamp, maxRetries := 3, batchSize := 5,
    healthcareDataPriority := true }

/-- SyncStatus values of the reconciliation engine state machine. -/
inductive SyncStatusM where
  | idle | syncing | conflict | error | offline
deriving DecidableEq, Repr

/-- Conflict classifications of SyncConflict.conflictType. -/
inductive ConflictType where
  | update | delete | concurrent_edit
deriving DecidableEq, Repr

/-- SyncConflict (syncService.ts lines 1001-1009); timestamps as epoch
milliseconds. -/
structure SyncConflict (V : Type) where
  key : String
  table : String
  localData : V
  remoteData : V
  localTimestamp : Nat
  remoteTimestamp : Nat
  conflictType : ConflictType
deriving DecidableEq, Repr

/-- An offline_changes_queue row (read in processOfflineQueue). -/
structure OfflineChange where
  id : Nat
  table_name : String
  operation : String
  encrypted_data : String
  queued_at : Nat
  processed : Bool
  error_message : Option String
deriving DecidableEq, Repr

/-- Observable actions of one drain of the offline change queue: each entry is
attempted, and its outcome (processed := true on success, error_message update
on failure) is written back before the next entry is attempted. -/
inductive DrainEv where
  | attempt (id : Nat)
  | markProcessed (id : Nat)
  | recordError (id : Nat)
deriving DecidableEq, Repr

namespace SyncService

/-- SyncService.getTableName (syncService.ts lines 1594-1608). -/
def getTableName (key : String) : String :=
  if key = "goals" then "user_goals"
  else if key = "achievements" then "user_achievements"
  else if key = "skills" then "user_skills"
  else if key = "skillsList" then "user_skills"
  else if key = "calendarNotes" then "user_calendar_notes"
  else if key = "symptoms" then "user_symptoms"
  else if key = "wordFiles" then "user_word_files"
  else if key = "username" then "user_profiles"
  else if key = "favorites" then "user_profiles"
  else if key = "points" then "user_profiles"
  else "user_profiles"

/-- SyncService.detectConflict (syncService.ts lines 1308-1338): a conflict
exists when the two payloads differ under JSON.stringify (modelled by
decidable equality on V); its type is concurrent_edit when the timestamps are
within the one-minute threshold (timeDiff < 60000 ms), update otherwise. -/
def detectConflict {V : Type} [DecidableEq V] (key : String)
    (localData remoteData : V) (localTimestamp remoteTimestamp : Nat) :
    Option (SyncConflict V) :=
  if localData ≠ remoteData then
    let timeDiff := max localTimestamp remoteTimestamp -
      min localTimestamp remoteTimestamp
    some { key := key, table := getTableName key, localData := localData,
           remoteData := remoteData, localTimestamp := localTimestamp,
           remoteTimestamp := remoteTimestamp,
           conflictType := if timeDiff < 60000 then .concurrent_edit else .update }
  else none

/-- The common tail of resolveConflict: apply the winning data both locally
and remotely through dataService.setData, then record the winning timestamp in
the local `<key>_timestamp` entry. -/
def applyWinner {V : Type} (remoteOk : Bool) (now : Nat) (key : String) (d : V)
    (ts : Nat) (userId : String) (w : World V) : World V :=
  let w' := (HybridDataService.setData true remoteOk now key d userId w).1
  { w' with localSt := w'.localSt.setTs key ts }

/-- SyncService.resolveConflict (syncService.ts lines 1343-1386). Under
latest_timestamp the side with the greater-or-equal timestamp wins (Date
comparison localTime >= remoteTime, so ties favour local). Returns false only
for the manual policy, which requires user resolution. -/
def resolveConflict {V : Type} (cfg : SyncSettingsM) (remoteOk : Bool)
    (now : Nat) (c : SyncConflict V) (userId : String) (w : World V) :
    World V × Bool :=
  match cfg.conflictResolution with
  | .manual => (w, false)
  | .local_wins =>
    (applyWinner remoteOk now c.key c.localData c.localTimestamp userId w, true)
  | .remote_wins =>
    (applyWinner remoteOk now c.key c.remoteData c.remoteTimestamp userId w, true)
  | .latest_timestamp =>
    if c.remoteTimestamp ≤ c.localTimestamp then
      (applyWinner remoteOk now c.key c.localData c.localTimestamp userId w, true)
    else
      (applyWinner remoteOk now c.key c.remoteData c.remoteTimestamp userId w, true)

/-- SyncService.getRemoteData (syncService.ts lines 1555-1562): a
dataService.getData call with the authenticated session, the remote table
row as the fetch result, and any thrown error converted to null. The Local
Cache Store may be updated by getData's write-through caching. -/
def getRemoteDataM {V : Type} (key userId : String) (w : World V) :
    Option V × World V :=
  match HybridDataService.getData true (some userId) (.ok (w.remote.data key))
      key userId w.localSt with
  | (.ok v, st') => (v, { w with localSt := st' })
  | (.error _, st') => (none, { w with localSt := st' })

/-- SyncService.syncDataType (syncService.ts lines 1235-1303). Reads the local
value and its `<key>_timestamp` entry (missing or non-string gives the epoch),
the remote value (through getRemoteData) and the remote timestamp (sync_status
last_sync_at, epoch when absent), then: pull when only remote exists, push
when only local exists, otherwise detect a conflict and auto-resolve it unless
the policy is manual; with no conflict, pull when the local timestamp is
older, push when newer, and do nothing when equal. -/
def syncDataType {V : Type} [DecidableEq V] (cfg : SyncSettingsM)
    (remoteOk : Bool) (now : Nat) (userId key : String) (w : World V) :
    World V × Option (SyncConflict V) :=
  let localData := w.localSt.data key
  let localTimestamp := (w.localSt.tstamp key).getD 0
  let fetched := getRemoteDataM key userId w
  let remoteData := fetched.1
  let w₁ := fetched.2
  let remoteTimestamp := (w.remote.ts key).getD 0
  match localData with
  | none =>
    match remoteData with
    | some rv =>
      let w₂ := (HybridDataService.setData true remoteOk now key rv userId w₁).1
      ({ w₂ with localSt := w₂.localSt.setTs key remoteTimestamp }, none)
    | none => (w₁, none)
  | some lv =>
    match remoteData with
    | none =>
      let w₂ := (HybridDataService.setData true remoteOk now key lv userId w₁).1
      ({ w₂ with localSt := w₂.localSt.setTs key now }, none)
    | some rv =>
      match detectConflict key lv rv localTimestamp remoteTimestamp with
      | some c =>
        if cfg.conflictResolution ≠ .manual then
          let step := resolveConflict cfg remoteOk now c userId w₁
          if step.2 then (step.1, none) else (step.1, some c)
        else (w₁, some c)
      | none =>
        if localTimestamp < remoteTimestamp then
          ({ w₁ with localSt := (w₁.localSt.setVal key rv).setTs key remoteTimestamp },
           none)
        else if remoteTimestamp < localTimestamp then
          let w₂ := (HybridDataService.setData true remoteOk now key lv userId w₁).1
          ({ w₂ with localSt := w₂.localSt.setTs key now }, none)
        else (w₁, none)

end SyncService

end Kompass


namespace Kompass

namespace HybridDataService

/-- HybridDataService.removeData (dataService.ts lines 895-906): the local
removal is immediate; the remote soft-delete is attempted only when online and
its failure is swallowed. -/
def removeData {V : Type} (online remoteOk : Bool) (key userId : String)
    (w : World V) : World V :=
  let lst : LocalState V :=
    { w.localSt with data := fun k' => if k' = key then none else w.localSt.data k' }
  if online && remoteOk then
    { w with localSt := lst,
             remote := { w.remote with
               data := fun k' => if k' = key then none else w.remote.data k' } }
  else { w with localSt := lst }

end HybridDataService

namespace SyncService

/-- The key passed to dataService by processOfflineQueue:
`change.table_name.replace('user_', '')` (the table names all start with the
replaced prefix). -/
def tableToKey (t : String) : String :=
  if strStartsWith "user_" t then String.mk (t.data.drop 5) else t

/-- One iteration of the processOfflineQueue loop body (syncService.ts lines
1468-1499) on a fetched change row. `decodeVal` is the oracle for the
decrypted payload; its error is the thrown message of a failing replay.
Success dispatches on the operation (insert and update write through
dataService.setData, delete through dataService.removeData, anything else
falls through the switch) and yields processed := true; failure records the
message in error_message and leaves the entry pending. -/
def replayChange {V : Type} (decodeVal : OfflineChange → Except String V)
    (remoteOk : Bool) (now : Nat) (userId : String) (w : World V)
    (c : OfflineChange) : World V × OfflineChange × List DrainEv :=
  match decodeVal c with
  | .error e =>
    (w, { c with error_message := some e }, [.attempt c.id, .recordError c.id])
  | .ok v =>
    let w' :=
      if c.operation = "insert" || c.operation = "update" then
        (HybridDataService.setData true remoteOk now (tableToKey c.table_name)
          v userId w).1
      else if c.operation = "delete" then
        HybridDataService.removeData true remoteOk (tableToKey c.table_name)
          userId w
      else w
    (w', { c with processed := true }, [.attempt c.id, .markProcessed c.id])

/-- SyncService.processOfflineQueue (syncService.ts lines 1455-1501) on the
list the database query returns (pending entries of this owner ordered by
queued_at ascending). Each entry's outcome is written back before the next
entry is attempted; the event list records this order. Returns the updated
world, the written-back entries, and the events in program order. -/
def processOfflineQueue {V : Type} (decodeVal : OfflineChange → Except String V)
    (remoteOk : Bool) (now : Nat) (userId : String) :
    World V → List OfflineChange → World V × List OfflineChange × List DrainEv
  | w, [] => (w, [], [])
  | w, c :: rest =>
    let step := replayChange decodeVal remoteOk now userId w c
    let tail := processOfflineQueue decodeVal remoteOk now userId step.1 rest
    (tail.1, step.2.1 :: tail.2.1, step.2.2 ++ tail.2.2)

/-- The reconciliation engine's own state (SyncService fields). -/
structure EngineState (V : Type) where
  status : SyncStatusM
  isOnline : Bool
  settings : SyncSettingsM
  pendingConflicts : List (SyncConflict V)
  lastSyncTime : Option Nat
deriving Repr

/-- SyncResult (syncService.ts lines 1011-1018); syncDuration is a difference
of two wall-clock reads and is modelled as zero. -/
structure SyncResultM (V : Type) where
  success : List String
  failed : List (String × String)
  conflicts : List (SyncConflict V)
  totalSynced : Nat
  lastSyncTime : Nat
  syncDuration : Nat
deriving DecidableEq, Repr

/-- The fixed registry of tracked kinds (syncAllDataTypes, syncService.ts
lines 1177-1188). -/
def syncDataTypes : List String :=
  ["username", "points", "favorites", "goals", "achievements", "skills",
   "skillsList", "calendarNotes", "symptoms", "wordFiles"]

/-- SyncService.prioritizeHealthcareData (syncService.ts lines 1610-1614). -/
def prioritizeHealthcareData (dataTypes : List String) : List String :=
  let healthcareTypes := ["symptoms", "calendarNotes", "goals"]
  let regularTypes := dataTypes.filter (fun t => decide (t ∉ healthcareTypes))
  (healthcareTypes.filter (fun t => decide (t ∈ dataTypes))) ++ regularTypes

/-- SyncService.syncAllDataTypes (syncService.ts lines 1174-1230): every
tracked kind is reconciled once (healthcare kinds first when configured);
kinds are grouped into batches of batchSize whose members run under
Promise.all — modelled sequentially, which is one admissible interleaving of
the cooperative scheduler. Accumulates successes, conflicts and the count of
synced kinds. -/
def syncAllDataTypes {V : Type} [DecidableEq V] (cfg : SyncSettingsM)
    (remoteOk : Bool) (now : Nat) (userId : String) (w : World V) :
    World V × List String × List (SyncConflict V) × Nat :=
  let types := if cfg.healthcareDataPriority then
    prioritizeHealthcareData syncDataTypes else syncDataTypes
  types.foldl
    (fun acc k =>
      let step := syncDataType cfg remoteOk now userId k acc.1
      match step.2 with
      | some c => (step.1, acc.2.1, acc.2.2.1 ++ [c], acc.2.2.2)
      | none => (step.1, acc.2.1 ++ [k], acc.2.2.1, acc.2.2.2 + 1))
    (w, [], [], 0)

/-- Write the drained entries back into the offline_changes_queue table: each
update targets the row with the entry's id. -/
def updateById (tbl upd : List OfflineChange) : List OfflineChange :=
  tbl.map (fun c =>
    match upd.find? (fun u => u.id = c.id) with
    | some u => u
    | none => c)

/-- SyncService.performSync (syncService.ts lines 1108-1169). Fails fast with
a descriptive error, before any work, when offline or when a sync is already
in progress; then resolves the current identity (aborting without one), drains
the offline change queue for that identity in queued_at order, reconciles
every tracked kind, and finishes in the conflict state when unresolved
conflicts remain, in idle otherwise. `offlineTbl` is the
offline_changes_queue table contents for this owner. -/
def performSync {V : Type} [DecidableEq V]
    (decodeVal : OfflineChange → Except String V) (remoteOk : Bool) (now : Nat)
    (authUser : Option String) (st : EngineState V) (w : World V)
    (offlineTbl : List OfflineChange) :
    EngineState V × World V × List OfflineChange × Except String (SyncResultM V) :=
  if st.isOnline = false then
    (st, w, offlineTbl, .error "Cannot sync while offline")
  else if st.status = SyncStatusM.syncing then
    (st, w, offlineTbl, .error "Sync already in progress")
  else
    match authUser with
    | none => ({ st with status := .error }, w, offlineTbl,
               .error "No authenticated user found")
    | some uid =>
      let fetched := List.insertionSort (fun a b => a.queued_at ≤ b.queued_at)
        (offlineTbl.filter (fun c => c.processed = false))
      let drained := processOfflineQueue decodeVal remoteOk now uid w fetched
      let tbl' := updateById offlineTbl drained.2.1
      let synced := syncAllDataTypes st.settings remoteOk now uid drained.1
      let conflicts := synced.2.2.1
      let st' :=
        if conflicts.isEmpty then
          { st with status := .idle, lastSyncTime := some now }
        else
          { st with status := .conflict, pendingConflicts := conflicts,
                    lastSyncTime := some now }
      (st', synced.1, tbl',
       .ok { success := synced.2.1, failed := [], conflicts := conflicts,
             totalSynced := synced.2.2.2, lastSyncTime := now, syncDuration := 0 })

end SyncService

end Kompass


namespace Kompass

/-- JSON-serializable JavaScript values. Json.null models the JavaScript null
value; numbers are restricted to integers (floating point is out of scope for
this embedding); object fields keep insertion order, as JSON.stringify and
JSON.parse do. -/
inductive Json where
  | null
  | bool (b : Bool)
  | num (n : Int)
  | str (s : String)
  | arr (elems : List Json)
  | obj (fields : List (String × Json))

/-- The JavaScript test `data === null` on an embedded value. -/
def Json.isNull : Json → Bool
  | .null => true
  | _ => false

/-- Lowercase hexadecimal digit, as used by JSON.stringify control-character
escapes. -/
def hexDigit (n : Nat) : Char := "0123456789abcdef".data.getD n '0'

/-- The escape JSON.stringify applies to one character of a string value. -/
def escapeJsonChar (c : Char) : List Char :=
  if c = '"' then ['\\', '"']
  else if c = '\\' then ['\\', '\\']
  else if c = '\x08' then ['\\', 'b']
  else if c = '\x09' then ['\\', 't']
  else if c = '\x0a' then ['\\', 'n']
  else if c = '\x0c' then ['\\', 'f']
  else if c = '\x0d' then ['\\', 'r']
  else if c.toNat < 32 then
    ['\\', 'u', '0', '0', hexDigit (c.toNat / 16), hexDigit (c.toNat % 16)]
  else [c]

/-- A JSON string literal's characters for the given raw characters. -/
def jsonQuote (cs : List Char) : List Char :=
  '"' :: (cs.map escapeJsonChar).flatten ++ ['"']

mutual

/-- JSON.stringify on the embedded Json fragment, as a character list. -/
def stringifyChars : Json → List Char
  | .null => "null".data
  | .bool true => "true".data
  | .bool false => "false".data
  | .num n => (toString n).data
  | .str s => jsonQuote s.data
  | .arr xs => '[' :: stringifyList xs ++ [']']
  | .obj fs => '\x7b' :: stringifyFields fs ++ ['\x7d']

/-- Comma-separated stringification of array elements. -/
def stringifyList : List Json → List Char
  | [] => []
  | [x] => stringifyChars x
  | x :: y :: rest => stringifyChars x ++ ',' :: stringifyList (y :: rest)

/-- Comma-separated stringification of object fields, in insertion order. -/
def stringifyFields : List (String × Json) → List Char
  | [] => []
  | [(k, v)] => jsonQuote k.data ++ ':' :: stringifyChars v
  | (k, v) :: f :: rest =>
    jsonQuote k.data ++ ':' :: stringifyChars v ++ ',' :: stringifyFields (f :: rest)

end

/-- JSON.stringify on the embedded Json fragment. -/
def stringify (v : Json) : String := String.mk (stringifyChars v)

/-- The base64 alphabet. -/
def b64Alphabet : List Char :=
  "ABCDEFGHIJKLMNOPQRSTUVWXYZabcdefghijklmnopqrstuvwxyz0123456789+/".data

/-- The base64 digit for a sextet value. -/
def b64Char (n : Nat) : Char := b64Alphabet.getD n 'A'

/-- The sextet value of a base64 digit, none for a character outside the
alphabet. -/
def b64Index (c : Char) : Option Nat := b64Alphabet.indexOf? c

/-- Base64 encoding of a byte list (values < 256), with padding, as the
JavaScript btoa produces. -/
def encodeB64 : List Nat → List Char
  | [] => []
  | [a] => [b64Char (a / 4), b64Char (a % 4 * 16), '=', '=']
  | [a, b] => [b64Char (a / 4), b64Char (a % 4 * 16 + b / 16), b64Char (b % 16 * 4), '=']
  | a :: b :: c :: rest =>
    b64Char (a / 4) :: b64Char (a % 4 * 16 + b / 16) ::
    b64Char (b % 16 * 4 + c / 64) :: b64Char (c % 64) :: encodeB64 rest

/-- Base64 decoding back to bytes; none models the DOMException the JavaScript
atob throws on input that is not well-formed base64 (padding may appear only
at the end; leftover padding bits are discarded, as the forgiving-base64
algorithm prescribes). -/
def decodeB64 : List Char → Option (List Nat)
  | [] => some []
  | c1 :: c2 :: c3 :: c4 :: rest =>
    match b64Index c1, b64Index c2 with
    | some s1, some s2 =>
      if c3 = '=' then
        if c4 = '=' && rest.isEmpty then some [s1 * 4 + s2 / 16] else none
      else
        match b64Index c3 with
        | some s3 =>
          if c4 = '=' then
            if rest.isEmpty then some [s1 * 4 + s2 / 16, s2 % 16 * 16 + s3 / 4]
            else none
          else
            match b64Index c4 with
            | some s4 =>
              (decodeB64 rest).map
                (fun bs => (s1 * 4 + s2 / 16) :: (s2 % 16 * 16 + s3 / 4) ::
                  (s3 % 4 * 64 + s4) :: bs)
            | none => none
        | none => none
    | _, _ => none
  | _ => none

/-- JavaScript btoa: base64 of the latin-1 bytes of the string; none models
the InvalidCharacterError thrown when a character exceeds code point 255. -/
def jsBtoa (s : String) : Option String :=
  if s.data.all (fun c => c.toNat < 256) then
    some (String.mk (encodeB64 (s.data.map Char.toNat)))
  else none

/-- JavaScript atob: decode base64 back to the latin-1 string. -/
def jsAtob (s : String) : Option String :=
  (decodeB64 s.data).map (fun bytes => String.mk (bytes.map Char.ofNat))

/-- Wire formats EncryptionService.detectDataFormat distinguishes. -/
inductive DataFormat where
  | pgcrypto_base64 | binary | base64 | json | fallback | unknown
deriving DecidableEq, Repr

namespace EncryptionService

/-- One character of the regex class [0-9a-fA-F]. -/
def isHexChar (c : Char) : Bool :=
  ('0' ≤ c && c ≤ '9') || ('a' ≤ c && c ≤ 'f') || ('A' ≤ c && c ≤ 'F')

/-- One character of the regex class [A-Za-z0-9+/=]. -/
def isB64AlphaChar (c : Char) : Bool :=
  c.isAlpha || c.isDigit || c = '+' || c = '/' || c = '='

/-- EncryptionService.detectDataFormat (encryptionService.ts lines 249-304).
`parseOk` is whether JSON.parse succeeds on the string (the platform JSON
parser, an external capability). String length is the JavaScript length. -/
def detectDataFormat (parseOk : String → Bool) (data : String) : DataFormat :=
  if data = "" then .unknown
  else if strStartsWith "fallback:" data then .fallback
  else if strStartsWith "\\x" data &&
      ((data.data.drop 2) ≠ [] && (data.data.drop 2).all isHexChar) then .binary
  else if strStartsWith "ww0ECQMC" data && data.data.length > 20 then .pgcrypto_base64
  else if strStartsWith "ww0" data && data.data.length > 40 then .pgcrypto_base64
  else if data.data.all isB64AlphaChar && data.data.length > 20 then
    if strIncludes data "ECQMC" || data.data.length > 40 then .pgcrypto_base64
    else if data.data.length % 4 = 0 then .base64
    else if parseOk data then .json
    else .unknown
  else if parseOk data then .json
  else .unknown

/-- EncryptionService.encrypt (encryptionService.ts lines 344-389). `session`
is the current auth session's user id; `rpcEncrypt` is the server-side
encrypt_data call (none models its error or unavailability). With no
authenticated session the degraded path returns the btoa of the JSON
serialization behind the fallback: prefix; null input throws. -/
def encrypt (session : Option String) (rpcEncrypt : String → Option String)
    (v : Json) (userId : String) : Except String String :=
  if v.isNull then .error "Cannot encrypt null or undefined data"
  else
    let jsonData := stringify v
    if session.isNone then
      match jsBtoa jsonData with
      | some b => .ok ("fallback:" ++ b)
      | none => .error "InvalidCharacterError"
    else
      match rpcEncrypt jsonData with
      | some encrypted => .ok encrypted
      | none =>
        match jsBtoa jsonData with
        | some b => .ok ("fallback:" ++ b)
        | none => .error "InvalidCharacterError"

/-- EncryptionService.decrypt (encryptionService.ts lines 395-482). `parse` is
the platform JSON.parse restricted to the embedded fragment; `rpcDecrypt` is
the server-side decrypt_data call returning the decrypted text or its error
message. Failures inside the try block fall back to the safe empty object
unless the thrown message mentions user_id or auth, which re-throws; the
unauthenticated pgcrypto branch throws such a message. -/
def decrypt (session : Option String) (parse : String → Option Json)
    (rpcDecrypt : String → Except String String) (data : String)
    (userId : String) : Except String Json :=
  if data = "" then
    .error "Invalid data for decryption: data must be a non-empty string"
  else
    match detectDataFormat (fun s => (parse s).isSome) data with
    | .fallback =>
      match jsAtob (String.mk (data.data.drop 9)) with
      | none => .ok (Json.obj [])
      | some decoded =>
        match parse decoded with
        | none => .ok (Json.obj [])
        | some j => .ok j
    | .pgcrypto_base64 | .binary =>
      if session.isNone then
        .error "User must be authenticated for server-side decryption"
      else
        match rpcDecrypt data with
        | .ok decrypted =>
          match parse decrypted with
          | some j => .ok j
          | none => .ok (Json.obj [])
        | .error e =>
          let m := "Server-side decryption failed: " ++ e
          if strIncludes m "user_id" || strIncludes m "auth" then .error m
          else .ok (Json.obj [])
    | .json =>
      match parse data with
      | some j => .ok j
      | none => .ok (Json.obj [])
    | .base64 =>
      match jsAtob data with
      | none => .ok (Json.obj [])
      | some decoded =>
        match parse decoded with
        | none => .ok (Json.obj [])
        | some j => .ok j
    | .unknown => .ok (Json.obj [])

/-- One write-read round trip through the degraded encoding path: encrypt then
decrypt under the same session and oracles. -/
def roundTrip (session : Option String) (rpcEncrypt : String → Option String)
    (parse : String → Option Json) (rpcDecrypt : String → Except String String)
    (v : Json) (userId : String) : Except String Json :=
  (encrypt session rpcEncrypt v userId).bind
    (fun s => decrypt session parse rpcDecrypt s userId)

end EncryptionService

end Kompass


namespace Kompass

namespace SyncService

/-- The outcome event a drained entry produces: processed on success, an
error_message update on failure (failure modelled by the decode oracle). -/
def drainOutcome {V : Type} (decodeVal : OfflineChange → Except String V)
    (c : OfflineChange) : DrainEv :=
  match decodeVal c with
  | .ok _ => .markProcessed c.id
  | .error _ => .recordError c.id

/-- Whether an event is the attempt of the entry with the given id. -/
def isAttemptOf (i : Nat) : DrainEv → Bool
  | .attempt j => decide (j = i)
  | _ => false

/-- The event sequence a queue drain emits for a fetched entry list, in
program order. -/
def drainTrace {V : Type} (decodeVal : OfflineChange → Except String V) :
    List OfflineChange → List DrainEv
  | [] => []
  | c :: rest =>
    .attempt c.id :: drainOutcome decodeVal c :: drainTrace decodeVal rest

end SyncService

/- Concrete states used by the witness theorems. -/

/-- An empty storage world over Nat payloads. -/
def w0 : World Nat :=
  { localSt := { data := fun _ => none, tstamp := fun _ => none },
    remote := { data := fun _ => none, ts := fun _ => none },
    syncQueue := fun _ => none }

/-- A local cache holding one goals record. -/
def st0 : LocalState Nat :=
  { data := fun k => if k = "goals" then some 7 else none, tstamp := fun _ => none }

/-- A local cache whose skillsList kind holds the list ["c"]. -/
def stSkills : LocalState (List String) :=
  { data := fun k => if k = "skillsList" then some ["c"] else none,
    tstamp := fun _ => none }

/-- A world where local and remote goals records hold the same value but the
local timestamp (0) is older than the remote one (100). -/
def w9 : World Nat :=
  { localSt := { data := fun k => if k = "goals" then some 5 else none,
                 tstamp := fun k => if k = "goals" then some 0 else none },
    remote := { data := fun k => if k = "goals" then some 5 else none,
                ts := fun k => if k = "goals" then some 100 else none },
    syncQueue := fun _ => none }

/-- A world where local and remote goals records hold the same value and the
same timestamp (50). -/
def w9eq : World Nat :=
  { localSt := { data := fun k => if k = "goals" then some 5 else none,
                 tstamp := fun k => if k = "goals" then some 50 else none },
    remote := { data := fun k => if k = "goals" then some 5 else none,
                ts := fun k => if k = "goals" then some 50 else none },
    syncQueue := fun _ => none }

/-- A pending offline change queued at t=100. -/
def qE1 : OfflineChange :=
  { id := 1, table_name := "user_goals", operation := "update",
    encrypted_data := "p1", queued_at := 100, processed := false,
    error_message := none }

/-- A pending offline change queued at t=200. -/
def qE2 : OfflineChange :=
  { id := 2, table_name := "user_goals", operation := "delete",
    encrypted_data := "p2", queued_at := 200, processed := false,
    error_message := none }

/-- An idle reconciliation engine that is offline. -/
def engOffline : SyncService.EngineState Nat :=
  { status := .idle, isOnline := false, settings := defaultSyncSettings,
    pendingConflicts := [], lastSyncTime := none }

/-- A reconciliation engine with a sync already in flight. -/
def engSyncing : SyncService.EngineState Nat :=
  { status := .syncing, isOnline := true, settings := defaultSyncSettings,
    pendingConflicts := [], lastSyncTime := none }

/-- A concrete conflict: local value 1 at t=100 against remote value 2 at
t=140. -/
def c34 : SyncConflict Nat :=
  { key := "goals", table := "user_goals", localData := 1, remoteData := 2,
    localTimestamp := 100, remoteTimestamp := 140, conflictType := .update }

/-- A JSON.parse oracle defined at the single serialization "true". -/
def parseTrueOracle : String → Option Json :=
  fun s => if s = "true" then some (Json.bool true) else none

end Kompass

-- ======================= THEOREMS =======================
theorem listAtStart_append {α : Type} [DecidableEq α] (n : List α) :
    ∀ (h t : List α), listAtStart n h = true → listAtStart n (h ++ t) = true := by
  induction n with
  | nil => intro h t _; rfl
  | cons a as ih =>
    intro h t hn
    cases h with
    | nil => simp [listAtStart] at hn
    | cons b bs =>
      simp only [listAtStart, Bool.and_eq_true, decide_eq_true_eq] at hn
      simp only [List.cons_append, listAtStart, Bool.and_eq_true, decide_eq_true_eq]
      exact ⟨hn.1, ih bs t hn.2⟩

theorem listHasInfix_of_atStart {α : Type} [DecidableEq α] (n h : List α)
    (hn : listAtStart n h = true) : listHasInfix n h = true := by
  cases h with
  | nil => simpa [listHasInfix] using hn
  | cons b bs => simp [listHasInfix, hn]

theorem strIncludes_append_left (p s needle : String)
    (hp : listAtStart needle.data p.data = true) :
    strIncludes (p ++ s) needle = true := by
  have hdata : (p ++ s).data = p.data ++ s.data := by
    cases p; cases s; rfl
  unfold strIncludes
  rw [hdata]
  exact listHasInfix_of_atStart _ _ (listAtStart_append _ _ _ hp)

theorem mem_jsSetDedup {α : Type} [DecidableEq α] (x : α) :
    ∀ (l seen : List α), x ∈ jsSetDedup seen l ↔ x ∈ l ∧ x ∉ seen := by
  intro l
  induction l with
  | nil => intro seen; simp [jsSetDedup]
  | cons y ys ih =>
    intro seen
    by_cases hy : y ∈ seen
    · simp only [jsSetDedup, if_pos hy, ih, List.mem_cons]
      constructor
      · rintro ⟨hx, hns⟩; exact ⟨Or.inr hx, hns⟩
      · rintro ⟨hx | hx, hns⟩
        · exact absurd (hx ▸ hy) hns
        · exact ⟨hx, hns⟩
    · simp only [jsSetDedup, if_neg hy, List.mem_cons, ih]
      constructor
      · rintro (rfl | ⟨hx, hns⟩)
        · exact ⟨Or.inl rfl, hy⟩
        · exact ⟨Or.inr hx, fun hc => hns (Or.inr hc)⟩
      · rintro ⟨rfl | hx, hns⟩
        · exact Or.inl rfl
        · by_cases hxy : x = y
          · exact Or.inl hxy
          · exact Or.inr ⟨hx, fun hc => hc.elim hxy hns⟩

theorem nodup_jsSetDedup {α : Type} [DecidableEq α] :
    ∀ (l seen : List α), (jsSetDedup seen l).Nodup := by
  intro l
  induction l with
  | nil => intro seen; simp [jsSetDedup]
  | cons y ys ih =>
    intro seen
    by_cases hy : y ∈ seen
    · simpa [jsSetDedup, hy] using ih seen
    · simp only [jsSetDedup, if_neg hy, List.nodup_cons]
      refine ⟨fun hc => ?_, ih (y :: seen)⟩
      exact ((mem_jsSetDedup y ys (y :: seen)).mp hc).2 (List.mem_cons_self y seen)

theorem collectSeen_cons {α : Type} [DecidableEq α] (seen : List α) (x : α) (l : List α) :
    collectSeen seen (x :: l) =
      collectSeen (if x ∈ seen then seen else x :: seen) l := by
  by_cases hx : x ∈ seen <;> simp [collectSeen, hx]

theorem mem_collectSeen {α : Type} [DecidableEq α] (x : α) :
    ∀ (l seen : List α), x ∈ collectSeen seen l ↔ x ∈ seen ∨ x ∈ l := by
  intro l
  induction l with
  | nil => intro seen; simp [collectSeen]
  | cons y ys ih =>
    intro seen
    rw [collectSeen_cons]
    by_cases hy : y ∈ seen
    · rw [if_pos hy, ih]
      constructor
      · rintro (h | h)
        · exact Or.inl h
        · exact Or.inr (List.mem_cons_of_mem _ h)
      · rintro (h | h)
        · exact Or.inl h
        · rcases List.mem_cons.mp h with rfl | h
          · exact Or.inl hy
          · exact Or.inr h
    · rw [if_neg hy, ih]
      constructor
      · rintro (h | h)
        · rcases List.mem_cons.mp h with rfl | h
          · exact Or.inr (List.mem_cons_self _ _)
          · exact Or.inl h
        · exact Or.inr (List.mem_cons_of_mem _ h)
      · rintro (h | h)
        · exact Or.inl (List.mem_cons_of_mem _ h)
        · rcases List.mem_cons.mp h with rfl | h
          · exact Or.inl (List.mem_cons_self _ _)
          · exact Or.inr h

theorem jsSetDedup_append {α : Type} [DecidableEq α] :
    ∀ (l₁ l₂ seen : List α),
      jsSetDedup seen (l₁ ++ l₂) =
        jsSetDedup seen l₁ ++ jsSetDedup (collectSeen seen l₁) l₂ := by
  intro l₁
  induction l₁ with
  | nil => intro l₂ seen; simp [jsSetDedup, collectSeen]
  | cons x xs ih =>
    intro l₂ seen
    by_cases hx : x ∈ seen
    · simp only [List.cons_append, jsSetDedup, if_pos hx, collectSeen_cons,
        List.append_eq, ih]
    · simp only [List.cons_append, jsSetDedup, if_neg hx, collectSeen_cons,
        List.append_eq, ih, List.cons_append]

namespace Kompass

open HybridDataService

/-- C1 counterexample: at a concrete online call with a succeeding remote
write, HybridDataService.setData performs the Remote Record Store write first
and the Local Cache Store write second, so the claimed local-first order (and
the claim that nothing further happens after remote success) fails. -/
theorem setData_localFirst_counterexample :
    (setData true true 5 "goals" (1 : Nat) "user-1" w0).2
      = [StoreEv.remoteWrite "goals", StoreEv.localWrite "goals"]
    ∧ (setData true true 5 "goals" (1 : Nat) "user-1" w0).2.head?
      ≠ some (StoreEv.localWrite "goals") := by
  refine ⟨rfl, ?_⟩
  decide

/-- C1 (amended): setData is Supabase-first. When online and the remote write
succeeds, the order is remote write then local cache write, with both stores
holding the value and nothing queued; when online and the remote write fails,
the value is still cached locally and an entry is queued for retry, the remote
store unchanged; when offline, the remote attempt is skipped and the value is
cached locally and queued. -/
theorem setData_supabase_first {V : Type} (online remoteOk : Bool) (now : Nat)
    (key : String) (v : V) (userId : String) (w : World V) :
    (online = true → remoteOk = true →
      (setData online remoteOk now key v userId w).2
        = [StoreEv.remoteWrite key, StoreEv.localWrite key] ∧
      (setData online remoteOk now key v userId w).1.remote.data key = some v ∧
      (setData online remoteOk now key v userId w).1.localSt.data key = some v ∧
      (setData online remoteOk now key v userId w).1.syncQueue = w.syncQueue) ∧
    (online = true → remoteOk = false →
      (setData online remoteOk now key v userId w).2
        = [StoreEv.remoteFailed key, StoreEv.localWrite key, StoreEv.enqueued key] ∧
      (setData online remoteOk now key v userId w).1.remote = w.remote ∧
      (setData online remoteOk now key v userId w).1.localSt.data key = some v ∧
      (setData online remoteOk now key v userId w).1.syncQueue (userId, key)
        = some (v, now)) ∧
    (online = false →
      (setData online remoteOk now key v userId w).2
        = [StoreEv.localWrite key, StoreEv.enqueued key] ∧
      (setData online remoteOk now key v userId w).1.remote = w.remote ∧
      (setData online remoteOk now key v userId w).1.localSt.data key = some v ∧
      (setData online remoteOk now key v userId w).1.syncQueue (userId, key)
        = some (v, now)) := by
  refine ⟨?_, ?_, ?_⟩
  · rintro rfl rfl
    simp [setData, RemoteState.setVal, LocalState.setVal]
  · rintro rfl rfl
    simp [setData, LocalState.setVal]
  · rintro rfl
    simp [setData, LocalState.setVal]

/-- Witness for the amended C1 theorem at a concrete online call with remote
success. -/
theorem setData_supabase_first_witness :
    (setData true true 5 "goals" (2 : Nat) "u" w0).2
      = [StoreEv.remoteWrite "goals", StoreEv.localWrite "goals"] ∧
    (setData true true 5 "goals" (2 : Nat) "u" w0).1.remote.data "goals" = some 2 ∧
    (setData true true 5 "goals" (2 : Nat) "u" w0).1.localSt.data "goals" = some 2 ∧
    (setData true true 5 "goals" (2 : Nat) "u" w0).1.syncQueue = w0.syncQueue :=
  (setData_supabase_first true true 5 "goals" 2 "u" w0).1 rfl rfl

end Kompass

namespace Kompass

open HybridDataService

theorem isCriticalAuthMsg_invalid_userId (userId : String) :
    isCriticalAuthMsg ("Invalid userId provided for getData: " ++ userId) = true := by
  unfold isCriticalAuthMsg
  have h : strIncludes ("Invalid userId provided for getData: " ++ userId)
      "Invalid userId" = true :=
    strIncludes_append_left _ _ _ (by decide)
  rw [h, Bool.or_true]

/-- C2: getData propagates identity and ownership violations without falling
back to the Local Cache Store — an absent or blank ownerId fails the call
immediately, and online, a session not matching the requested ownerId
propagates the session-mismatch failure, the cache untouched in both cases —
while any other remote failure (one whose thrown message is not classified as
a critical identity failure by the coordinator's own message test) silently
returns the Local Cache Store value instead of throwing. Both propagated
messages satisfy the coordinator's identity-failure test. -/
theorem getData_identity_isolation {V : Type} (online : Bool)
    (session : Option String) (fetch : Except String (Option V))
    (key userId : String) (st : LocalState V) :
    (isBlankStr userId = true →
      getData online session fetch key userId st
        = (.error ("Invalid userId provided for getData: " ++ userId), st)) ∧
    (online = true → isBlankStr userId = false → session ≠ some userId →
      getData online session fetch key userId st
        = (.error "Session user ID mismatch - potential cross-user data access attempt",
           st)) ∧
    (online = true → isBlankStr userId = false → session = some userId →
      ∀ msg, fetch = .error msg → isCriticalAuthMsg msg = false →
        getData online session fetch key userId st = (.ok (st.data key), st)) ∧
    (isCriticalAuthMsg ("Invalid userId provided for getData: " ++ userId) = true ∧
     isCriticalAuthMsg
       "Session user ID mismatch - potential cross-user data access attempt" = true) := by
  refine ⟨?_, ?_, ?_, isCriticalAuthMsg_invalid_userId userId, by decide⟩
  · intro hb
    simp [getData, hb]
  · rintro rfl hb hm
    simp [getData, backendGet, hb, hm]
    decide
  · rintro rfl hb rfl msg rfl hcr
    simp [getData, backendGet, hb, hcr]

end Kompass

namespace Kompass

open HybridDataService

/-- Witness for the C2 theorem: a session mismatch propagates (cache
untouched), while a plain network failure silently yields the cached value. -/
theorem getData_identity_isolation_witness :
    (getData true (some "other") (Except.ok (none : Option Nat)) "goals" "u1" st0
      = (.error "Session user ID mismatch - potential cross-user data access attempt",
         st0)) ∧
    (getData true (some "u1") (Except.error "network down" : Except String (Option Nat))
        "goals" "u1" st0
      = (.ok (st0.data "goals"), st0)) :=
  ⟨(getData_identity_isolation true (some "other") (Except.ok (none : Option Nat))
      "goals" "u1" st0).2.1 rfl (by decide) (by decide),
   (getData_identity_isolation true (some "u1")
      (Except.error "network down" : Except String (Option Nat)) "goals" "u1"
      st0).2.2.1 rfl (by decide) rfl "network down" rfl (by decide)⟩

/-- C7: getDataSafe on the skillsList kind with default list D: when the read
yields an empty list (or no list at all), the result is exactly D; when it
yields a non-empty list R, the result is the de-duplicated union of D and R
with D's items first — it has no duplicates, its members are exactly those of
D and R, and it starts with de-duplicated D followed only by items not in D. -/
theorem getDataSafe_skillsList_merge {α : Type} [DecidableEq α] (online : Bool)
    (session : Option String) (fetch : Except String (Option (List α)))
    (userId : String) (st st' : LocalState (List α)) (defaultValue : List α)
    (rOpt : Option (List α))
    (hread : getData online session fetch "skillsList" userId st = (.ok rOpt, st')) :
    ((rOpt = some [] ∨ rOpt = none) →
      (getDataSafe online session fetch "skillsList" userId st defaultValue).1
        = .ok defaultValue) ∧
    (∀ r, rOpt = some r → r ≠ [] →
      ∃ merged,
        (getDataSafe online session fetch "skillsList" userId st defaultValue).1
          = .ok merged ∧
        merged.Nodup ∧
        (∀ x, x ∈ merged ↔ x ∈ defaultValue ∨ x ∈ r) ∧
        ∃ tail, merged = jsSetDedup [] defaultValue ++ tail ∧
          ∀ x ∈ tail, x ∉ defaultValue) := by
  constructor
  · rintro (rfl | rfl) <;> simp [getDataSafe, hread]
  · rintro r rfl hne
    refine ⟨jsSetDedup [] (defaultValue ++ r), ?_, nodup_jsSetDedup _ _, ?_, ?_⟩
    · have hlen : r.length ≠ 0 := fun h => hne (List.length_eq_zero.mp h)
      simp [getDataSafe, hread, hlen]
    · intro x
      rw [mem_jsSetDedup]
      simp
    · refine ⟨jsSetDedup (collectSeen [] defaultValue) r, jsSetDedup_append _ _ _, ?_⟩
      intro x hx hxd
      exact ((mem_jsSetDedup x r (collectSeen [] defaultValue)).mp hx).2
        ((mem_collectSeen x defaultValue []).mpr (Or.inr hxd))

/-- Witness for the C7 theorem at the specification's scenario: default list
["a","b"], stored read ["c"]; the merged result is ["a","b","c"], and with a
stored empty read the result is the default. The stored value is read offline
from the local cache. -/
theorem getDataSafe_skillsList_merge_witness :
    ((getDataSafe false none (Except.ok none) "skillsList" "u1" stSkills
        ["a", "b"]).1 = .ok ["a", "b", "c"]) ∧
    (∃ merged,
      (getDataSafe false none (Except.ok none) "skillsList" "u1" stSkills
          ["a", "b"]).1 = .ok merged ∧
      merged.Nodup ∧
      (∀ x, x ∈ merged ↔ x ∈ ["a", "b"] ∨ x ∈ ["c"]) ∧
      ∃ tail, merged = jsSetDedup [] ["a", "b"] ++ tail ∧
        ∀ x ∈ tail, x ∉ ["a", "b"]) := by
  have h := (getDataSafe_skillsList_merge false none (Except.ok none) "u1"
    stSkills stSkills ["a", "b"] (some ["c"]) rfl).2 ["c"] rfl (by decide)
  exact ⟨rfl, h⟩

end Kompass

namespace Kompass

open SyncService

/-- C3: under the latest_timestamp policy, automatic conflict resolution
succeeds and applies to both stores the value whose timestamp is the maximum
of the local and remote timestamps, the local value winning exact ties; the
winning timestamp is also recorded in the local timestamp entry. The remote
write of the resolution is assumed to succeed. -/
theorem resolveConflict_latestTimestamp {V : Type} (cfg : SyncSettingsM)
    (now : Nat) (c : SyncConflict V) (userId : String) (w : World V)
    (hpol : cfg.conflictResolution = .latest_timestamp) :
    (resolveConflict cfg true now c userId w).2 = true ∧
    ∃ win ts,
      ((win = c.localData ∧ ts = c.localTimestamp) ∨
       (win = c.remoteData ∧ ts = c.remoteTimestamp)) ∧
      ts = max c.localTimestamp c.remoteTimestamp ∧
      (resolveConflict cfg true now c userId w).1.localSt.data c.key = some win ∧
      (resolveConflict cfg true now c userId w).1.remote.data c.key = some win ∧
      (resolveConflict cfg true now c userId w).1.localSt.tstamp c.key = some ts ∧
      (c.localTimestamp = c.remoteTimestamp → win = c.localData) := by
  by_cases hle : c.remoteTimestamp ≤ c.localTimestamp
  · refine ⟨?_, c.localData, c.localTimestamp, Or.inl ⟨rfl, rfl⟩,
      (Nat.max_eq_left hle).symm, ?_, ?_, ?_, fun _ => rfl⟩ <;>
      simp [resolveConflict, hpol, hle, applyWinner, HybridDataService.setData,
        LocalState.setVal, LocalState.setTs, RemoteState.setVal]
  · have hlt : c.localTimestamp ≤ c.remoteTimestamp := by omega
    refine ⟨?_, c.remoteData, c.remoteTimestamp, Or.inr ⟨rfl, rfl⟩,
      (Nat.max_eq_right hlt).symm, ?_, ?_, ?_, fun h => by omega⟩ <;>
      simp [resolveConflict, hpol, hle, applyWinner, HybridDataService.setData,
        LocalState.setVal, LocalState.setTs, RemoteState.setVal]

/-- Witness for the C3 theorem at the specification's scenario: local value 1
at t=100 against remote value 2 at t=140 resolves to the remote value on both
stores. The first conjunct checks the resolved stores concretely. -/
theorem resolveConflict_latestTimestamp_witness :
    ((resolveConflict defaultSyncSettings true 999 c34 "u" w0).1.localSt.data "goals"
        = some 2 ∧
     (resolveConflict defaultSyncSettings true 999 c34 "u" w0).1.remote.data "goals"
        = some 2) ∧
    ((resolveConflict defaultSyncSettings true 999 c34 "u" w0).2 = true ∧
     ∃ win ts,
      ((win = c34.localData ∧ ts = c34.localTimestamp) ∨
       (win = c34.remoteData ∧ ts = c34.remoteTimestamp)) ∧
      ts = max c34.localTimestamp c34.remoteTimestamp ∧
      (resolveConflict defaultSyncSettings true 999 c34 "u" w0).1.localSt.data c34.key
        = some win ∧
      (resolveConflict defaultSyncSettings true 999 c34 "u" w0).1.remote.data c34.key
        = some win ∧
      (resolveConflict defaultSyncSettings true 999 c34 "u" w0).1.localSt.tstamp c34.key
        = some ts ∧
      (c34.localTimestamp = c34.remoteTimestamp → win = c34.localData)) :=
  ⟨⟨rfl, rfl⟩, resolveConflict_latestTimestamp defaultSyncSettings 999 c34 "u" w0 rfl⟩

/-- C4: for differing local and remote values of a kind, detectConflict builds
a conflict whose type is concurrent_edit exactly when the absolute timestamp
difference is under 60000 ms (60 seconds), and update otherwise, carrying the
two values and timestamps unchanged. -/
theorem detectConflict_classification {V : Type} [DecidableEq V] (key : String)
    (lv rv : V) (lt rt : Nat) (hne : lv ≠ rv) :
    ∃ c, detectConflict key lv rv lt rt = some c ∧
      (c.conflictType = .concurrent_edit ↔ max lt rt - min lt rt < 60000) ∧
      (c.conflictType = .update ↔ ¬(max lt rt - min lt rt < 60000)) ∧
      c.localData = lv ∧ c.remoteData = rv ∧
      c.localTimestamp = lt ∧ c.remoteTimestamp = rt := by
  unfold detectConflict
  rw [if_pos hne]
  refine ⟨_, rfl, ?_, ?_, rfl, rfl, rfl, rfl⟩ <;>
    by_cases hd : max lt rt - min lt rt < 60000 <;> simp [hd]

/-- Witness for the C4 theorem: values 1 and 2, timestamps 1000 and 30000 ms
(29 seconds apart), classified concurrent_edit. -/
theorem detectConflict_classification_witness :
    ∃ c, detectConflict "goals" (1 : Nat) 2 1000 30000 = some c ∧
      (c.conflictType = .concurrent_edit ↔ max 1000 30000 - min 1000 30000 < 60000) ∧
      (c.conflictType = .update ↔ ¬(max 1000 30000 - min 1000 30000 < 60000)) ∧
      c.localData = 1 ∧ c.remoteData = 2 ∧
      c.localTimestamp = 1000 ∧ c.remoteTimestamp = 30000 :=
  detectConflict_classification "goals" 1 2 1000 30000 (by decide)

/-- C5: performSync rejects immediately, with a descriptive error and with the
engine state, the storage world and the offline queue table unchanged (so
nothing is queued and no reconciliation work happens), whenever the engine is
offline or a sync is already in progress. -/
theorem performSync_fail_fast {V : Type} [DecidableEq V]
    (decodeVal : OfflineChange → Except String V) (remoteOk : Bool) (now : Nat)
    (authUser : Option String) (st : EngineState V) (w : World V)
    (tbl : List OfflineChange) :
    (st.isOnline = false →
      performSync decodeVal remoteOk now authUser st w tbl
        = (st, w, tbl, .error "Cannot sync while offline")) ∧
    (st.isOnline = true → st.status = .syncing →
      performSync decodeVal remoteOk now authUser st w tbl
        = (st, w, tbl, .error "Sync already in progress")) := by
  constructor
  · intro h; simp [performSync, h]
  · intro h1 h2; simp [performSync, h1, h2]

/-- Witness for the C5 theorem: a concrete offline engine and a concrete
engine already syncing are both rejected unchanged. -/
theorem performSync_fail_fast_witness :
    (performSync (fun _ => (Except.error "x" : Except String Nat)) true 7
        (some "u") engOffline w0 []
      = (engOffline, w0, [], .error "Cannot sync while offline")) ∧
    (performSync (fun _ => (Except.error "x" : Except String Nat)) true 7
        (some "u") engSyncing w0 []
      = (engSyncing, w0, [], .error "Sync already in progress")) :=
  ⟨(performSync_fail_fast _ true 7 (some "u") engOffline w0 []).1 rfl,
   (performSync_fail_fast _ true 7 (some "u") engSyncing w0 []).2 rfl rfl⟩

end Kompass

namespace Kompass

open SyncService

theorem processOfflineQueue_trace {V : Type} (d : OfflineChange → Except String V)
    (ro : Bool) (now : Nat) (u : String) :
    ∀ (q : List OfflineChange) (w : World V),
      (processOfflineQueue d ro now u w q).2.2 = drainTrace d q := by
  intro q
  induction q with
  | nil => intro w; rfl
  | cons c rest ih =>
    intro w
    simp only [processOfflineQueue, drainTrace]
    cases hd : d c <;> simp [replayChange, hd, drainOutcome, ih]

theorem drainOutcome_not_attempt {V : Type} (d : OfflineChange → Except String V)
    (c : OfflineChange) (i : Nat) : isAttemptOf i (drainOutcome d c) = false := by
  cases hd : d c <;> simp [drainOutcome, hd, isAttemptOf]

theorem attempt_mem_drainTrace {V : Type} (d : OfflineChange → Except String V) :
    ∀ (q : List OfflineChange) (e : OfflineChange), e ∈ q →
      DrainEv.attempt e.id ∈ drainTrace d q := by
  intro q
  induction q with
  | nil => intro e h; cases h
  | cons c rest ih =>
    intro e h
    rcases List.mem_cons.mp h with rfl | h
    · exact List.mem_cons_self _ _
    · exact List.mem_cons_of_mem _ (List.mem_cons_of_mem _ (ih e h))

theorem drainOutcome_before_attempt {V : Type} (d : OfflineChange → Except String V) :
    ∀ (q : List OfflineChange) (e1 e2 : OfflineChange),
      q.Pairwise (fun a b => a.queued_at ≤ b.queued_at) →
      (q.map (fun c => c.id)).Nodup →
      e1 ∈ q → e2 ∈ q → e1.queued_at < e2.queued_at →
      drainOutcome d e1 ∈
        (drainTrace d q).takeWhile (fun ev => !(isAttemptOf e2.id ev)) := by
  intro q
  induction q with
  | nil => intro e1 e2 _ _ h1 _ _; cases h1
  | cons c rest ih =>
    intro e1 e2 hsort hids h1 h2 ht
    have hinj : ∀ x ∈ c :: rest, ∀ y ∈ c :: rest, x.id = y.id → x = y :=
      fun x hx y hy hxy => List.inj_on_of_nodup_map hids hx hy hxy
    have hne12 : e1 ≠ e2 := fun h => by rw [h] at ht; omega
    have hid12 : e1.id ≠ e2.id := fun h => hne12 (hinj e1 h1 e2 h2 h)
    rcases List.pairwise_cons.mp hsort with ⟨hc, hrest⟩
    have hids' : (rest.map (fun c => c.id)).Nodup := by
      rw [List.map_cons, List.nodup_cons] at hids
      exact hids.2
    by_cases hce1 : c = e1
    · subst hce1
      have h2r : e2 ∈ rest := by
        rcases List.mem_cons.mp h2 with h | h
        · exact absurd h.symm hne12
        · exact h
      have hp1 : (!(isAttemptOf e2.id (DrainEv.attempt c.id))) = true := by
        simp [isAttemptOf]
        exact hid12
      have hp2 : (!(isAttemptOf e2.id (drainOutcome d c))) = true := by
        simp [drainOutcome_not_attempt]
      simp only [drainTrace, List.takeWhile_cons, hp1, hp2, if_true]
      exact List.mem_cons_of_mem _ (List.mem_cons_self _ _)
    · have h1r : e1 ∈ rest :=
        (List.mem_cons.mp h1).resolve_left (fun h => hce1 h.symm)
      have hce2 : c ≠ e2 := by
        intro h
        subst h
        exact absurd (hc e1 h1r) (by omega)
      have h2r : e2 ∈ rest :=
        (List.mem_cons.mp h2).resolve_left (fun h => hce2 h.symm)
      have hcid : c.id ≠ e2.id :=
        fun h => hce2 (hinj c (List.mem_cons_self _ _) e2 h2 h)
      have hp1 : (!(isAttemptOf e2.id (DrainEv.attempt c.id))) = true := by
        simp [isAttemptOf]
        exact hcid
      have hp2 : (!(isAttemptOf e2.id (drainOutcome d c))) = true := by
        simp [drainOutcome_not_attempt]
      simp only [drainTrace, List.takeWhile_cons, hp1, hp2, if_true]
      exact List.mem_cons_of_mem _ (List.mem_cons_of_mem _
        (ih e1 e2 hrest hids' h1r h2r ht))

/-- C6: for two pending entries E1 and E2 of one owner with E1 queued strictly
earlier, a drain of the offline change queue (over the pending rows the
database returns ordered by queued_at, with distinct row ids) records E1's
outcome — processed on success or the error message on failure — strictly
before E2's attempt: E1's outcome event lies in the trace segment preceding
the first attempt of E2, and E2 is attempted. This holds whether or not E1's
replay fails, since the outcome event is emitted either way. -/
theorem processOfflineQueue_ordering {V : Type}
    (decodeVal : OfflineChange → Except String V) (remoteOk : Bool) (now : Nat)
    (userId : String) (w : World V) (q : List OfflineChange)
    (e1 e2 : OfflineChange)
    (hsort : q.Pairwise (fun a b => a.queued_at ≤ b.queued_at))
    (hids : (q.map (fun c => c.id)).Nodup)
    (h1 : e1 ∈ q) (h2 : e2 ∈ q)
    (h1p : e1.processed = false) (h2p : e2.processed = false)
    (ht : e1.queued_at < e2.queued_at) :
    drainOutcome decodeVal e1 ∈
      ((processOfflineQueue decodeVal remoteOk now userId w q).2.2).takeWhile
        (fun ev => !(isAttemptOf e2.id ev)) ∧
    DrainEv.attempt e2.id ∈
      (processOfflineQueue decodeVal remoteOk now userId w q).2.2 := by
  rw [processOfflineQueue_trace]
  exact ⟨drainOutcome_before_attempt decodeVal q e1 e2 hsort hids h1 h2 ht,
    attempt_mem_drainTrace decodeVal q e2 h2⟩

/-- Witness for the C6 theorem: two concrete pending entries queued at t=100
and t=200, where the earlier entry's replay fails; its error outcome is still
recorded before the later entry's attempt. -/
theorem processOfflineQueue_ordering_witness :
    drainOutcome (fun _ => (Except.error "replay failed" : Except String Nat)) qE1 ∈
      ((processOfflineQueue (fun _ => (Except.error "replay failed" : Except String Nat))
          true 7 "u" w0 [qE1, qE2]).2.2).takeWhile
        (fun ev => !(isAttemptOf qE2.id ev)) ∧
    DrainEv.attempt qE2.id ∈
      (processOfflineQueue (fun _ => (Except.error "replay failed" : Except String Nat))
        true 7 "u" w0 [qE1, qE2]).2.2 :=
  processOfflineQueue_ordering _ true 7 "u" w0 [qE1, qE2] qE1 qE2
    (by decide) (by decide) (by decide) (by decide) rfl rfl (by decide)

end Kompass

namespace Kompass

open ErrorHandlingService

theorem runStrategies_all_fail {R : Type} (handler : FallbackStrategyM → Option R) :
    ∀ (l : List FallbackStrategyM) (info : ErrorInfoM),
      (∀ s ∈ l, handler s = none) →
      (runStrategies handler info l).2.2.1 = none ∧
      (runStrategies handler info l).2.1 = l ∧
      (runStrategies handler info l).1.message = info.message ∧
      (runStrategies handler info l).1.category = info.category ∧
      (runStrategies handler info l).1.severity = info.severity := by
  intro l
  induction l with
  | nil => intro info _; exact ⟨rfl, rfl, rfl, rfl, rfl⟩
  | cons s rest ih =>
    intro info hall
    have hs : handler s = none := hall s (List.mem_cons_self _ _)
    have hrest : ∀ x ∈ rest, handler x = none :=
      fun x hx => hall x (List.mem_cons_of_mem _ hx)
    have hinfo : ∀ info' : ErrorInfoM,
        (if s.canRetry && decide (info.retryCount < s.maxRetries) then
          { info with retryCount := info.retryCount + 1 } else info).message
            = info.message ∧
        (if s.canRetry && decide (info.retryCount < s.maxRetries) then
          { info with retryCount := info.retryCount + 1 } else info).category
            = info.category ∧
        (if s.canRetry && decide (info.retryCount < s.maxRetries) then
          { info with retryCount := info.retryCount + 1 } else info).severity
            = info.severity := by
      intro _; split <;> exact ⟨rfl, rfl, rfl⟩
    obtain ⟨hm, hc, hv⟩ := hinfo info
    obtain ⟨g1, g2, g3, g4, g5⟩ := ih
      (if s.canRetry && decide (info.retryCount < s.maxRetries) then
        { info with retryCount := info.retryCount + 1 } else info) hrest
    refine ⟨?_, ?_, ?_, ?_, ?_⟩ <;> simp only [runStrategies, hs]
    · exact g1
    · rw [g2]
    · rw [g3, hm]
    · rw [g4, hc]
    · rw [g5, hv]

end Kompass

namespace Kompass

open ErrorHandlingService

/-- C8: when no registered fallback strategy resolves the error, handleError
still returns a structured escalation result (it does not throw): the result
is the escalation value, whose visibility matches the input severity —
critical is marked critical with the category's recovery actions, high is
retryable and visible, medium and low are silent, and only low omits the
message. The strategies tried are exactly those registered for the category
(a permutation of the registered set), in ascending priority order. -/
theorem handleError_fallback_completeness {R : Type}
    (handler : FallbackStrategyM → Option R)
    (strategies : List FallbackStrategyM) (msg : String) (cat : ErrorCategory)
    (sev : ErrorSeverity)
    (hfail : ∀ s ∈ strategies, s.category = cat → handler s = none) :
    ∃ e : EscResult,
      (handleError handler strategies msg cat sev).1 = HandleOutcome.escalated e ∧
      e.error = true ∧
      (e.critical = true ↔ sev = ErrorSeverity.critical) ∧
      (e.silent = true ↔ (sev = ErrorSeverity.medium ∨ sev = ErrorSeverity.low)) ∧
      (e.canRetry = true ↔ sev = ErrorSeverity.high) ∧
      (sev ≠ ErrorSeverity.low → e.message = some msg) ∧
      (sev = ErrorSeverity.low → e.message = none) ∧
      (sev = ErrorSeverity.critical →
        e.recoveryActions = generateRecoveryActions cat) ∧
      (handleError handler strategies msg cat sev).2.1.Perm
        (strategies.filter (fun s => s.category = cat)) ∧
      (handleError handler strategies msg cat sev).2.1.Pairwise
        (fun a b => a.priority ≤ b.priority) ∧
      (∀ s ∈ (handleError handler strategies msg cat sev).2.1, s.category = cat) := by
  have hperm : (applicableStrategies strategies cat).Perm
      (strategies.filter (fun s => s.category = cat)) :=
    List.perm_insertionSort _ _
  have hallfail : ∀ s ∈ applicableStrategies strategies cat, handler s = none := by
    intro s hs
    rcases List.mem_filter.mp (hperm.mem_iff.mp hs) with ⟨hmem, hcat⟩
    exact hfail s hmem (by simpa using hcat)
  obtain ⟨h1, h2, h3, h4, h5⟩ := runStrategies_all_fail handler
    (applicableStrategies strategies cat) (createErrorInfo msg cat sev) hallfail
  have hsev : (runStrategies handler (createErrorInfo msg cat sev)
      (applicableStrategies strategies cat)).1.severity = sev := by
    rw [h5]; rfl
  have hmsg : (runStrategies handler (createErrorInfo msg cat sev)
      (applicableStrategies strategies cat)).1.message = msg := by
    rw [h3]; rfl
  have hcat2 : (runStrategies handler (createErrorInfo msg cat sev)
      (applicableStrategies strategies cat)).1.category = cat := by
    rw [h4]; rfl
  have houtcome : (handleError handler strategies msg cat sev).1
      = HandleOutcome.escalated (escalateError (runStrategies handler
          (createErrorInfo msg cat sev) (applicableStrategies strategies cat)).1) := by
    simp only [handleError, h1]
  have htried : (handleError handler strategies msg cat sev).2.1
      = applicableStrategies strategies cat := by
    simp only [handleError, h1]
    exact h2
  have hsorted : (applicableStrategies strategies cat).Pairwise
      (fun a b => a.priority ≤ b.priority) := by
    haveI : IsTotal FallbackStrategyM (fun a b => a.priority ≤ b.priority) :=
      ⟨fun a b => Nat.le_total _ _⟩
    haveI : IsTrans FallbackStrategyM (fun a b => a.priority ≤ b.priority) :=
      ⟨fun a b c hab hbc => Nat.le_trans hab hbc⟩
    exact List.sorted_insertionSort _ _
  refine ⟨escalateError (runStrategies handler (createErrorInfo msg cat sev)
    (applicableStrategies strategies cat)).1, houtcome, ?_, ?_, ?_, ?_, ?_, ?_, ?_,
    htried ▸ hperm, htried ▸ hsorted, ?_⟩
  · cases sev <;> simp [escalateError, hsev]
  · cases sev <;> simp [escalateError, hsev]
  · cases sev <;> simp [escalateError, hsev]
  · cases sev <;> simp [escalateError, hsev]
  · cases sev <;> simp [escalateError, hsev, hmsg]
  · cases sev <;> simp [escalateError, hsev]
  · cases sev <;> simp [escalateError, hsev, hcat2]
  · intro s hs
    rw [htried] at hs
    rcases List.mem_filter.mp (hperm.mem_iff.mp hs) with ⟨_, hcatm⟩
    simpa using hcatm

/-- Witness for the C8 theorem: a storage-category critical error with a
handler that resolves nothing. The first conjunct checks concretely that the
tried strategies are the two registered storage strategies in priority order
and that the escalation is the critical structured result with the storage
recovery actions. -/
theorem handleError_fallback_completeness_witness :
    ((handleError (fun _ => (none : Option Nat)) initialFallbackStrategies
        "disk full" ErrorCategory.storage ErrorSeverity.critical).2.1.map
          (fun s => s.name) = ["storage_cleanup", "localStorage_fallback"]) ∧
    (∃ e : EscResult,
      (handleError (fun _ => (none : Option Nat)) initialFallbackStrategies
        "disk full" ErrorCategory.storage ErrorSeverity.critical).1
          = HandleOutcome.escalated e ∧
      e.error = true ∧
      (e.critical = true ↔ ErrorSeverity.critical = ErrorSeverity.critical) ∧
      (e.silent = true ↔ (ErrorSeverity.critical = ErrorSeverity.medium ∨
        ErrorSeverity.critical = ErrorSeverity.low)) ∧
      (e.canRetry = true ↔ ErrorSeverity.critical = ErrorSeverity.high) ∧
      (ErrorSeverity.critical ≠ ErrorSeverity.low → e.message = some "disk full") ∧
      (ErrorSeverity.critical = ErrorSeverity.low → e.message = none) ∧
      (ErrorSeverity.critical = ErrorSeverity.critical →
        e.recoveryActions = generateRecoveryActions ErrorCategory.storage) ∧
      (handleError (fun _ => (none : Option Nat)) initialFallbackStrategies
        "disk full" ErrorCategory.storage ErrorSeverity.critical).2.1.Perm
          (initialFallbackStrategies.filter
            (fun s => s.category = ErrorCategory.storage)) ∧
      (handleError (fun _ => (none : Option Nat)) initialFallbackStrategies
        "disk full" ErrorCategory.storage ErrorSeverity.critical).2.1.Pairwise
          (fun a b => a.priority ≤ b.priority) ∧
      (∀ s ∈ (handleError (fun _ => (none : Option Nat)) initialFallbackStrategies
        "disk full" ErrorCategory.storage ErrorSeverity.critical).2.1,
          s.category = ErrorCategory.storage)) :=
  ⟨by decide,
   handleError_fallback_completeness (fun _ => (none : Option Nat))
     initialFallbackStrategies "disk full" ErrorCategory.storage
     ErrorSeverity.critical (fun s _ _ => rfl)⟩

end Kompass

namespace Kompass

theorem setVal_self {V : Type} (st : LocalState V) (key : String) (v : V)
    (h : st.data key = some v) : st.setVal key v = st := by
  cases st with
  | mk d t =>
    simp only [LocalState.setVal, LocalState.mk.injEq, and_true]
    funext k'
    by_cases hk : k' = key
    · subst hk
      rw [if_pos rfl]
      exact h.symm
    · rw [if_neg hk]

theorem remoteSetVal_self {V : Type} (st : RemoteState V) (key : String) (v : V)
    (h : st.data key = some v) : st.setVal key v = st := by
  cases st with
  | mk d t =>
    simp only [RemoteState.setVal, RemoteState.mk.injEq, and_true]
    funext k'
    by_cases hk : k' = key
    · subst hk
      rw [if_pos rfl]
      exact h.symm
    · rw [if_neg hk]

/-- C9 counterexample: with local and remote goals records both holding the
value 5 (serialized-equal) but recorded timestamps 0 (local) and 100 (remote),
one reconciliation pass of the kind rewrites the local recorded timestamp to
100 — the pass is not a no-op, contradicting the claim. -/
theorem syncDataType_noop_counterexample :
    (w9.localSt.data "goals" = some 5 ∧ w9.remote.data "goals" = some 5) ∧
    w9.localSt.tstamp "goals" = some 0 ∧
    (SyncService.syncDataType defaultSyncSettings true 999 "u1" "goals"
      w9).1.localSt.tstamp "goals" = some 100 ∧
    (SyncService.syncDataType defaultSyncSettings true 999 "u1" "goals"
      w9).1.localSt.tstamp "goals" ≠ w9.localSt.tstamp "goals" := by
  refine ⟨⟨rfl, rfl⟩, rfl, ?_, ?_⟩ <;> decide

/-- C9 (amended): when the local and remote values of a kind are both present
and serialized-equal, a reconciliation pass of that kind reports no conflict
and never changes either store's values, the remote timestamps, or the sync
queue; it is a complete no-op exactly when the recorded timestamps agree —
when the local timestamp is older it is rewritten to the remote timestamp, and
when it is newer the (equal) value is pushed and the local timestamp set to
the current time. Other kinds' local timestamp entries are untouched. -/
theorem syncDataType_serializedEqual_frame {V : Type} [DecidableEq V]
    (cfg : SyncSettingsM) (now : Nat) (userId key : String) (w : World V) (v : V)
    (hl : w.localSt.data key = some v) (hr : w.remote.data key = some v)
    (hu : isBlankStr userId = false) :
    (SyncService.syncDataType cfg true now userId key w).2 = none ∧
    (∀ k', (SyncService.syncDataType cfg true now userId key w).1.localSt.data k'
      = w.localSt.data k') ∧
    (∀ k', (SyncService.syncDataType cfg true now userId key w).1.remote.data k'
      = w.remote.data k') ∧
    (∀ k', (SyncService.syncDataType cfg true now userId key w).1.remote.ts k'
      = w.remote.ts k') ∧
    (∀ p, (SyncService.syncDataType cfg true now userId key w).1.syncQueue p
      = w.syncQueue p) ∧
    ((w.localSt.tstamp key).getD 0 = (w.remote.ts key).getD 0 →
      (SyncService.syncDataType cfg true now userId key w).1 = w) ∧
    ((w.localSt.tstamp key).getD 0 < (w.remote.ts key).getD 0 →
      (SyncService.syncDataType cfg true now userId key w).1.localSt.tstamp key
        = some ((w.remote.ts key).getD 0) ∧
      ∀ k', k' ≠ key →
        (SyncService.syncDataType cfg true now userId key w).1.localSt.tstamp k'
          = w.localSt.tstamp k') ∧
    ((w.remote.ts key).getD 0 < (w.localSt.tstamp key).getD 0 →
      (SyncService.syncDataType cfg true now userId key w).1.localSt.tstamp key
        = some now ∧
      ∀ k', k' ≠ key →
        (SyncService.syncDataType cfg true now userId key w).1.localSt.tstamp k'
          = w.localSt.tstamp k') := by
  have hget : SyncService.getRemoteDataM key userId w = (some v, w) := by
    simp [SyncService.getRemoteDataM, HybridDataService.getData,
      HybridDataService.backendGet, hu, hr, setVal_self _ _ _ hl]
  have hdet : SyncService.detectConflict (V := V) key v v
      ((w.localSt.tstamp key).getD 0) ((w.remote.ts key).getD 0) = none := by
    simp [SyncService.detectConflict]
  rcases Nat.lt_trichotomy ((w.localSt.tstamp key).getD 0)
    ((w.remote.ts key).getD 0) with hcmp | hcmp | hcmp
  · have hr1 : SyncService.syncDataType cfg true now userId key w
        = ({ w with localSt := w.localSt.setTs key ((w.remote.ts key).getD 0) },
           none) := by
      simp only [SyncService.syncDataType, hget, hl, hdet]
      rw [if_pos hcmp, setVal_self _ _ _ hl]
    rw [hr1]
    refine ⟨rfl, fun k' => rfl, fun k' => rfl, fun k' => rfl, fun p => rfl,
      fun h => by omega, fun _ => ⟨?_, fun k' hk => ?_⟩, fun h => by omega⟩
    · simp [LocalState.setTs]
    · simp [LocalState.setTs, hk]
  · have hr1 : SyncService.syncDataType cfg true now userId key w = (w, none) := by
      simp only [SyncService.syncDataType, hget, hl, hdet]
      rw [if_neg (by omega), if_neg (by omega)]
    rw [hr1]
    exact ⟨rfl, fun k' => rfl, fun k' => rfl, fun k' => rfl, fun p => rfl,
      fun _ => rfl, fun h => by omega, fun h => by omega⟩
  · have hr1 : SyncService.syncDataType cfg true now userId key w
        = ({ w with localSt := w.localSt.setTs key now }, none) := by
      simp only [SyncService.syncDataType, hget, hl, hdet]
      rw [if_neg (by omega), if_pos hcmp]
      simp only [HybridDataService.setData, if_true,
        setVal_self _ _ _ hl, remoteSetVal_self _ _ _ hr]
    rw [hr1]
    refine ⟨rfl, fun k' => rfl, fun k' => rfl, fun k' => rfl, fun p => rfl,
      fun h => by omega, fun h => by omega, fun _ => ⟨?_, fun k' hk => ?_⟩⟩
    · simp [LocalState.setTs]
    · simp [LocalState.setTs, hk]

/-- Witness for the amended C9 theorem: equal values and equal timestamps at a
concrete world make the pass a complete no-op. -/
theorem syncDataType_serializedEqual_frame_witness :
    (SyncService.syncDataType defaultSyncSettings true 999 "u1" "goals" w9eq).2
      = none ∧
    (SyncService.syncDataType defaultSyncSettings true 999 "u1" "goals" w9eq).1
      = w9eq := by
  have h := syncDataType_serializedEqual_frame defaultSyncSettings 999 "u1"
    "goals" w9eq 5 rfl rfl (by decide)
  exact ⟨h.1, h.2.2.2.2.2.1 rfl⟩

end Kompass

namespace Kompass

theorem b64Index_b64Char_fin : ∀ n : Fin 64, b64Index (b64Char n.val) = some n.val := by
  decide

theorem b64Char_ne_padChar_fin : ∀ n : Fin 64, b64Char n.val ≠ '=' := by
  decide

theorem b64Index_b64Char (n : Nat) (h : n < 64) : b64Index (b64Char n) = some n :=
  b64Index_b64Char_fin ⟨n, h⟩

theorem b64Char_ne_padChar (n : Nat) (h : n < 64) : b64Char n ≠ '=' :=
  b64Char_ne_padChar_fin ⟨n, h⟩

theorem decodeB64_encodeB64 :
    ∀ (l : List Nat), (∀ x ∈ l, x < 256) → decodeB64 (encodeB64 l) = some l
  | [], _ => rfl
  | [a], h => by
    have ha : a < 256 := h a (by simp)
    have e1 : b64Index (b64Char (a / 4)) = some (a / 4) :=
      b64Index_b64Char _ (by omega)
    have e2 : b64Index (b64Char (a % 4 * 16)) = some (a % 4 * 16) :=
      b64Index_b64Char _ (by omega)
    have h1 : a / 4 * 4 + a % 4 * 16 / 16 = a := by omega
    simp only [encodeB64, decodeB64, e1, e2, if_pos rfl, List.isEmpty_nil,
      Bool.and_true, decide_True, if_true, h1]
  | [a, b], h => by
    have ha : a < 256 := h a (by simp)
    have hb : b < 256 := h b (by simp)
    have e1 : b64Index (b64Char (a / 4)) = some (a / 4) :=
      b64Index_b64Char _ (by omega)
    have e2 : b64Index (b64Char (a % 4 * 16 + b / 16))
        = some (a % 4 * 16 + b / 16) := b64Index_b64Char _ (by omega)
    have e3 : b64Index (b64Char (b % 16 * 4)) = some (b % 16 * 4) :=
      b64Index_b64Char _ (by omega)
    have ne3 : (b64Char (b % 16 * 4) = '=') = False :=
      eq_false (b64Char_ne_padChar _ (by omega))
    have h1 : a / 4 * 4 + (a % 4 * 16 + b / 16) / 16 = a := by omega
    have h2 : (a % 4 * 16 + b / 16) % 16 * 16 + b % 16 * 4 / 4 = b := by omega
    simp only [encodeB64, decodeB64, e1, e2, e3, ne3, if_false, if_pos rfl,
      List.isEmpty_nil, if_true, h1, h2]
  | a :: b :: c :: rest, h => by
    have ha : a < 256 := h a (by simp)
    have hb : b < 256 := h b (by simp)
    have hc : c < 256 := h c (by simp)
    have ih := decodeB64_encodeB64 rest (fun x hx => h x (by simp [hx]))
    have e1 : b64Index (b64Char (a / 4)) = some (a / 4) :=
      b64Index_b64Char _ (by omega)
    have e2 : b64Index (b64Char (a % 4 * 16 + b / 16))
        = some (a % 4 * 16 + b / 16) := b64Index_b64Char _ (by omega)
    have e3 : b64Index (b64Char (b % 16 * 4 + c / 64))
        = some (b % 16 * 4 + c / 64) := b64Index_b64Char _ (by omega)
    have e4 : b64Index (b64Char (c % 64)) = some (c % 64) :=
      b64Index_b64Char _ (by omega)
    have ne3 : (b64Char (b % 16 * 4 + c / 64) = '=') = False :=
      eq_false (b64Char_ne_padChar _ (by omega))
    have ne4 : (b64Char (c % 64) = '=') = False :=
      eq_false (b64Char_ne_padChar _ (by omega))
    have h1 : a / 4 * 4 + (a % 4 * 16 + b / 16) / 16 = a := by omega
    have h2 : (a % 4 * 16 + b / 16) % 16 * 16 + (b % 16 * 4 + c / 64) / 4 = b := by
      omega
    have h3 : (b % 16 * 4 + c / 64) % 4 * 64 + c % 64 = c := by omega
    simp only [encodeB64, decodeB64, e1, e2, e3, e4, ne3, ne4, if_false, ih,
      Option.map_some, h1, h2, h3]
    rfl

end Kompass

namespace Kompass

theorem str_data_append (a b : String) : (a ++ b).data = a.data ++ b.data := by
  cases a; cases b; rfl

theorem string_mk_data (s : String) : String.mk s.data = s := rfl

theorem listAtStart_refl {α : Type} [DecidableEq α] :
    ∀ l : List α, listAtStart l l = true := by
  intro l
  induction l with
  | nil => rfl
  | cons a as ih =>
    unfold listAtStart
    simp [ih]

theorem strStartsWith_append (p s : String) : strStartsWith p (p ++ s) = true := by
  unfold strStartsWith
  rw [str_data_append]
  exact listAtStart_append _ _ _ (listAtStart_refl _)

theorem fallback_append_ne_empty (s : String) : ("fallback:" ++ s) ≠ "" := by
  intro h
  have hd := congrArg String.data h
  rw [str_data_append, List.append_eq_nil] at hd
  exact absurd hd.1 (by decide)

theorem fallback_drop (s : String) : ("fallback:" ++ s).data.drop 9 = s.data := by
  rw [str_data_append]
  have h9 : ("fallback:".data).length = 9 := rfl
  rw [← h9, List.drop_left]

theorem jsAtob_jsBtoa (s : String)
    (h : s.data.all (fun c => c.toNat < 256) = true) :
    ∃ b, jsBtoa s = some b ∧ jsAtob b = some s := by
  refine ⟨String.mk (encodeB64 (s.data.map Char.toNat)), by simp [jsBtoa, h], ?_⟩
  unfold jsAtob
  have hbytes : ∀ x ∈ s.data.map Char.toNat, x < 256 := by
    intro x hx
    rcases List.mem_map.mp hx with ⟨c, hc, rfl⟩
    simpa using List.all_eq_true.mp h c hc
  rw [show (String.mk (encodeB64 (s.data.map Char.toNat))).data
      = encodeB64 (s.data.map Char.toNat) from rfl]
  rw [decodeB64_encodeB64 _ hbytes]
  have hmap : (s.data.map Char.toNat).map Char.ofNat = s.data := by
    rw [List.map_map]
    have hco : Char.ofNat ∘ Char.toNat = id := funext fun c => Char.ofNat_toNat c
    rw [hco, List.map_id]
  simp [hmap]

theorem detectDataFormat_fallback (parseOk : String → Bool) (s : String) :
    EncryptionService.detectDataFormat parseOk ("fallback:" ++ s)
      = DataFormat.fallback := by
  unfold EncryptionService.detectDataFormat
  rw [if_neg (fallback_append_ne_empty s), if_pos (strStartsWith_append "fallback:" s)]

/-- C10 counterexample: at the JavaScript null value — which is
JSON-serializable — the unauthenticated encrypt throws 'Cannot encrypt null or
undefined data', so decrypt(encrypt(v,u),u) does not return a value
structurally equal to v; the claim fails as universally stated. -/
theorem roundTrip_null_counterexample :
    EncryptionService.roundTrip none (fun _ => none) parseTrueOracle
        (fun _ => .error "boom") Json.null "u1"
      = .error "Cannot encrypt null or undefined data" ∧
    ¬ ∃ j : Json, EncryptionService.roundTrip none (fun _ => none) parseTrueOracle
        (fun _ => .error "boom") Json.null "u1" = .ok j := by
  refine ⟨rfl, ?_⟩
  rintro ⟨j, hj⟩
  exact (Except.noConfusion hj : False)

/-- C10 (amended): with no authenticated session, for every JSON-serializable
value v other than null whose serialization stays within the latin-1 range
btoa accepts, and any user id, decrypt(encrypt(v,u),u) returns v exactly: the
degraded path produces a 'fallback:'-prefixed base64 string, the decoder
classifies it as fallback format (the prefix test is checked first), strips
the nine-character prefix, and inverts the base64 and JSON encodings. `parse`
is the platform JSON.parse, assumed only to invert JSON.stringify at v, which
is what JSON-serializable means. -/
theorem roundTrip_fallback_inverse (parse : String → Option Json)
    (rpcEncrypt : String → Option String)
    (rpcDecrypt : String → Except String String) (v : Json) (userId : String)
    (hv : v.isNull = false)
    (hlatin : (stringify v).data.all (fun c => c.toNat < 256) = true)
    (hparse : parse (stringify v) = some v) :
    EncryptionService.roundTrip none rpcEncrypt parse rpcDecrypt v userId
      = .ok v := by
  obtain ⟨b, hb, hab⟩ := jsAtob_jsBtoa (stringify v) hlatin
  have henc : EncryptionService.encrypt none rpcEncrypt v userId
      = .ok ("fallback:" ++ b) := by
    simp [EncryptionService.encrypt, hv, hb]
  have hdec : EncryptionService.decrypt none parse rpcDecrypt
      ("fallback:" ++ b) userId = .ok v := by
    unfold EncryptionService.decrypt
    rw [if_neg (fallback_append_ne_empty b), detectDataFormat_fallback]
    rw [show ("fallback:" ++ b).data.drop 9 = b.data from fallback_drop b]
    rw [string_mk_data, hab]
    simp only [hparse]
  simp [EncryptionService.roundTrip, henc, hdec, Except.bind]

/-- Witness for the amended C10 theorem at the value true, whose
serialization "true" is latin-1 and is inverted by the concrete parse
oracle. -/
theorem roundTrip_fallback_inverse_witness :
    EncryptionService.roundTrip none (fun _ => none) parseTrueOracle
        (fun _ => .error "boom") (Json.bool true) "u1"
      = .ok (Json.bool true) :=
  roundTrip_fallback_inverse parseTrueOracle (fun _ => none)
    (fun _ => .error "boom") (Json.bool true) "u1" rfl (by decide) rfl

end Kompass
